import Mathlib

/-!
Shallow embedding of `pupil_labs/real_time_screen_gaze` (files
`gaze_mapper.py` and `camera_models.py`) for checking the repository's
specification.  Coordinates are modelled over `ℚ`; Python dicts are
modelled as insertion-ordered association lists with in-place overwrite
on duplicate keys (the semantics of a CPython dict comprehension);
external collaborators (cv2, pupil_apriltags, surface_tracker, the
realtime-api gaze stream) are modelled as abstract function parameters
collected in an `Externals` record.
-/

namespace RTSG

/-- A 2-D point, as used for pixel and normalized coordinates. -/
structure Point where
  x : ℚ
  y : ℚ
deriving DecidableEq

/-- Opaque grayscale image data (argument to the external apriltag detector). -/
abbrev GrayImage := Nat

/-- A video frame; `bgr_pixels` is opaque pixel data (`frame.bgr_pixels` in
`GazeMapper.process_frame`). -/
structure Frame where
  bgr_pixels : Nat
deriving DecidableEq

/-- A raw detection returned by the external `pupil_apriltags` detector:
`{tag_family, tag_id, corners}` (see the marker detector contract in the spec). -/
structure RawDetection where
  tagFamily : String
  tagId : ℤ
  corners : List Point
deriving DecidableEq

/-- `create_apriltag_marker_uid` (gaze_mapper.py): the UID is the tag family
and the tag id joined by a colon. -/
def createApriltagMarkerUid (tagFamily : String) (tagId : ℤ) : String :=
  tagFamily ++ ":" ++ toString tagId

/-- `ApriltagDetector.__apiltag_marker_uid`: UID of a raw apriltag detection. -/
def rawDetectionUid (r : RawDetection) : String :=
  createApriltagMarkerUid r.tagFamily r.tagId

/-- A surface-tracker `Marker` (external `surface_tracker` package): a UID plus
undistorted image-space vertices.  `Marker.from_vertices` of the external
package stores the given uid and vertices; that contract is all the core uses. -/
structure Marker where
  uid : String
  vertices : List Point
deriving DecidableEq

/-- `surface_tracker.CornerId` (external): canonical corner labels. -/
inductive CornerId where
  | TOP_LEFT
  | TOP_RIGHT
  | BOTTOM_LEFT
  | BOTTOM_RIGHT
deriving DecidableEq

/-- `surface_tracker.CoordinateSpace` (external): the tag used by the core. -/
inductive CoordinateSpace where
  | SURFACE_UNDISTORTED
deriving DecidableEq

/-- `_CoreMarker` (gaze_mapper.py): a registered marker, storing a uid, a
coordinate-space tag and a map from corner id to a (normalized) point. -/
structure CoreMarker where
  uid : String
  coordinate_space : CoordinateSpace
  vertices_by_corner_id : CornerId → Point

/-- `_CoreMarker._vertices_in_order` (gaze_mapper.py line 239). -/
def CoreMarker.verticesInOrder (m : CoreMarker) (order : List CornerId) : List Point :=
  order.map m.vertices_by_corner_id

/-- `surface_tracker._Surface_V2` (external): uid, name and the registered
markers keyed by marker uid (`registered_markers_undistorted`).  The key/value
map is modelled as an insertion-ordered association list. -/
structure Surface where
  uid : String
  name : String
  registered_markers_undistorted : List (String × CoreMarker)

/-- `surface_tracker.SurfaceLocation` (external): carries the uid of the
located surface and the map from undistorted image-plane points to
surface-normalized points (`_map_from_image_to_surface`). -/
structure SurfaceLocation where
  surface_uid : String
  mapFromImageToSurface : List Point → List Point

/-- `Radial_Dist_Camera.__init__` (camera_models.py): name, resolution and the
intrinsic matrix `K` and distortion vector `D`. -/
structure RadialDistCamera where
  name : String
  resolution : Nat × Nat
  K : List (List ℚ)
  D : List ℚ
deriving DecidableEq

/-- The external collaborators the core calls into, as abstract functions:
cv2 (`undistortPoints`/`projectPoints` composed, parameterized by `K` and `D`,
and `cvtColor` to gray), the `pupil_apriltags` detector, and the
`surface_tracker` locator (`SurfaceTracker.locate_surface`). -/
structure Externals where
  cv2UndistortProject : List (List ℚ) → List ℚ → List Point → List Point
  bgrToGray : Nat → GrayImage
  apriltagDetect : GrayImage → List RawDetection
  locateSurface : Surface → List Marker → Option SurfaceLocation

/-- `Radial_Dist_Camera.undistort_points_on_image_plane` (camera_models.py):
`projectPoints(unprojectPoints(pts, use_distortion=True), use_distortion=False)`,
a cv2-backed computation determined by the camera's `K` and `D`. -/
def RadialDistCamera.undistortPointsOnImagePlane (env : Externals)
    (cam : RadialDistCamera) (pts : List Point) : List Point :=
  env.cv2UndistortProject cam.K cam.D pts

/-- A gaze sample (`pupil_labs.realtime_api.GazeData`, external): a named tuple
with fields `x`, `y`, `worn`, `timestamp_unix_seconds`, in that order. -/
structure GazeData where
  x : ℚ
  y : ℚ
  worn : Bool
  timestamp_unix_seconds : ℚ
deriving DecidableEq

/-- The value a single field of the `GazeData` named tuple can hold. -/
inductive GazeField where
  | num (q : ℚ)
  | flag (b : Bool)
deriving DecidableEq

/-- Iterating a Python named tuple yields its field values in declaration
order; for `GazeData` that is `x, y, worn, timestamp_unix_seconds`.  This is
what `zip(gaze, ...)` in `GazeMapper.process_frame` iterates over when `gaze`
is a single sample. -/
def GazeData.toFields (g : GazeData) : List GazeField :=
  [GazeField.num g.x, GazeField.num g.y, GazeField.flag g.worn,
   GazeField.num g.timestamp_unix_seconds]

/-- `MarkerMappedGaze` (gaze_mapper.py): one gaze point mapped onto a surface.
`base_datum` holds whatever value the caller passes as `base`; with a single
gaze sample the code passes one field of the sample (see `from_norm_pos`
call in `process_frame`), hence the type `GazeField`. -/
structure MarkerMappedGaze where
  aoi_id : String
  x : ℚ
  y : ℚ
  is_on_aoi : Bool
  base_datum : GazeField
deriving DecidableEq

/-- `MarkerMappedGaze.from_norm_pos` (gaze_mapper.py lines 131-136):
unpacks the normalized position and classifies on-surface with the inclusive
test `0.0 <= x <= 1.0 and 0.0 <= y <= 1.0`. -/
def MarkerMappedGaze.fromNormPos (aoiId : String) (normPos : Point)
    (baseDatum : GazeField) : MarkerMappedGaze :=
  { aoi_id := aoiId
    x := normPos.x
    y := normPos.y
    is_on_aoi := decide (0 ≤ normPos.x ∧ normPos.x ≤ 1 ∧ 0 ≤ normPos.y ∧ normPos.y ≤ 1)
    base_datum := baseDatum }

/-- `MarkerMapperResult` (gaze_mapper.py): markers, per-surface optional
location and per-surface mapped gaze, the latter two keyed by surface uid. -/
structure MarkerMapperResult where
  markers : List Marker
  located_aois : List (String × Option SurfaceLocation)
  mapped_gaze : List (String × List MarkerMappedGaze)

/-- Insert into a Python-dict-like association list: overwrite in place when
the key is present (keeping the original insertion position), append otherwise. -/
def dinsert {V : Type} : List (String × V) → String → V → List (String × V)
  | [], k, v => [(k, v)]
  | e :: rest, k, v => if e.1 = k then (k, v) :: rest else e :: dinsert rest k v

/-- Lookup in a Python-dict-like association list. -/
def dlookup {V : Type} : List (String × V) → String → Option V
  | [], _ => none
  | e :: rest, k => if e.1 = k then some e.2 else dlookup rest k

/-- A Python dict comprehension `{key(x): val(x) for x in xs}` as an
association list: fold of `dinsert` in iteration order. -/
def dictOfList {α V : Type} (key : α → String) (val : α → V) (xs : List α) :
    List (String × V) :=
  xs.foldl (fun d x => dinsert d (key x) (val x)) []

/-- The last element of a list satisfying a predicate, if any. -/
def lastWith {α : Type} (p : α → Bool) : List α → Option α
  | [] => none
  | x :: xs =>
    match lastWith p xs with
    | some y => some y
    | none => if p x then some x else none

/-- `ApriltagDetector` (gaze_mapper.py lines 150-156): stores the camera model
it was constructed with (the Python attribute holds whatever is passed,
including `None`); the `pupil_apriltags.Detector` it also builds is external
state captured by `Externals.apriltagDetect`. -/
structure ApriltagDetector where
  cameraModel : Option RadialDistCamera

/-- `ApriltagDetector.__init__`: per the source it stores the given camera
model and constructs the external detector; it raises nothing of its own, so
construction always succeeds (`Except.ok`), whatever the camera argument. -/
def apriltagDetectorInit (cameraModel : Option RadialDistCamera) :
    Except String ApriltagDetector :=
  Except.ok { cameraModel := cameraModel }

/-- `ApriltagDetector.__apriltag_marker_to_surface_marker`: undistort the raw
corners via the bound camera model and build a surface-tracker marker with the
same uid (`Marker.from_vertices` keeps the uid it is given). -/
def apriltagMarkerToSurfaceMarker (env : Externals) (cam : RadialDistCamera)
    (r : RawDetection) : Marker :=
  { uid := rawDetectionUid r
    vertices := cam.undistortPointsOnImagePlane env r.corners }

/-- `ApriltagDetector.detect_from_gray` (gaze_mapper.py lines 162-175): run the
external detector, deduplicate by uid with a dict comprehension
(`{uid_fn(m): m for m in markers}.values()`), then convert every surviving
detection, undistorting through the bound camera model.  When no camera model
is bound the per-detection conversion raises (`AttributeError` on `None`),
modelled as `Except.error`; with no surviving detection the conversion list is
empty and nothing raises. -/
def ApriltagDetector.detectFromGray (env : Externals) (d : ApriltagDetector)
    (gray : GrayImage) : Except String (List Marker) :=
  let raws := env.apriltagDetect gray
  let uniq := (dictOfList rawDetectionUid (fun m => m) raws).map Prod.snd
  match d.cameraModel with
  | some cam => Except.ok (uniq.map (apriltagMarkerToSurfaceMarker env cam))
  | none =>
    if uniq.isEmpty then Except.ok []
    else Except.error "AttributeError: NoneType has no undistort_points_on_image_plane"

/-- `ApriltagDetector.detect_from_image` (gaze_mapper.py lines 158-160):
convert BGR to gray via cv2 and detect. -/
def ApriltagDetector.detectFromImage (env : Externals) (d : ApriltagDetector)
    (frame : Frame) : Except String (List Marker) :=
  d.detectFromGray env (env.bgrToGray frame.bgr_pixels)

/-- The mutable attributes of a `GazeMapper` instance (gaze_mapper.py lines
33-38): `_camera`, `_detector`, `_surfaces`, `_recent_result`. -/
structure GazeMapperState where
  camera : Option RadialDistCamera
  detector : Option ApriltagDetector
  surfaces : List Surface
  recentResult : Option MarkerMapperResult

/-- The `GazeMapper.camera` setter (gaze_mapper.py lines 114-117): assign the
camera and rebuild the detector bound to it. -/
def GazeMapper.setCamera (s : GazeMapperState) (camera : Option RadialDistCamera) :
    GazeMapperState :=
  { s with camera := camera, detector := some { cameraModel := camera } }

/-- The calibration mapping passed to `GazeMapper.__init__`:
`calibration["scene_camera_matrix"][0]` and
`calibration["scene_distortion_coefficients"][0]`. -/
structure Calibration where
  scene_camera_matrix_0 : List (List ℚ)
  scene_distortion_coefficients_0 : List ℚ

/-- `GazeMapper.__init__` (gaze_mapper.py lines 28-45): start with the given
surfaces, no retained result, and assign `self.camera = Radial_Dist_Camera(...)`,
which runs the setter and also builds the detector. -/
def GazeMapper.init (calib : Calibration) (surfaces : List Surface) :
    GazeMapperState :=
  GazeMapper.setCamera
    { camera := none, detector := none, surfaces := surfaces, recentResult := none }
    (some { name := "Scene", resolution := (1, 1),
            K := calib.scene_camera_matrix_0,
            D := calib.scene_distortion_coefficients_0 })

/-- `GazeMapper.clear_surfaces` (gaze_mapper.py lines 79-80). -/
def GazeMapper.clearSurfaces (s : GazeMapperState) : GazeMapperState :=
  { s with surfaces := [] }

/-- The four pixel vertices of one marker entry of the `markers_verts` mapping
given to `GazeMapper.add_surface` (a 4-point polygon, indices 0..3). -/
structure MarkerVerts where
  v0 : Point
  v1 : Point
  v2 : Point
  v3 : Point
deriving DecidableEq

/-- The per-vertex normalization in `GazeMapper.add_surface` (lines 91-92):
divide componentwise by the surface pixel size, then flip the normalized
vertical axis. -/
def normVert (sz : ℚ × ℚ) (p : Point) : Point :=
  { x := p.x / sz.1, y := 1 - p.y / sz.2 }

/-- The `_CoreMarker` built for one entry of `markers_verts` in
`GazeMapper.add_surface` (lines 94-103): uid `tag36h11:<id>`, space
`SURFACE_UNDISTORTED`, and the index-to-corner assignment
3 to TOP_LEFT, 0 to BOTTOM_LEFT, 2 to TOP_RIGHT, 1 to BOTTOM_RIGHT. -/
def coreMarkerOfVerts (markerId : ℤ) (sz : ℚ × ℚ) (mv : MarkerVerts) : CoreMarker :=
  { uid := createApriltagMarkerUid "tag36h11" markerId
    coordinate_space := CoordinateSpace.SURFACE_UNDISTORTED
    vertices_by_corner_id := fun c =>
      match c with
      | CornerId.TOP_LEFT => normVert sz mv.v3
      | CornerId.BOTTOM_LEFT => normVert sz mv.v0
      | CornerId.TOP_RIGHT => normVert sz mv.v2
      | CornerId.BOTTOM_RIGHT => normVert sz mv.v1 }

/-- `GazeMapper.add_surface` (gaze_mapper.py lines 82-108): build a fresh
`_Surface_V2` (its uid is a fresh uuid4, modelled as the `freshUid` argument),
register one `_CoreMarker` per `markers_verts` entry keyed by marker uid
(`_add_marker` of the external surface inserts into the uid-keyed dict),
append the surface to the mapper's list and return it. -/
def GazeMapper.addSurface (s : GazeMapperState)
    (markersVerts : List (ℤ × MarkerVerts)) (surfaceSize : ℚ × ℚ)
    (name : String) (freshUid : String) : GazeMapperState × Surface :=
  let surface : Surface :=
    { uid := freshUid
      name := name
      registered_markers_undistorted :=
        dictOfList (fun e => createApriltagMarkerUid "tag36h11" e.1)
          (fun e => coreMarkerOfVerts e.1 surfaceSize e.2) markersVerts }
  ({ s with surfaces := s.surfaces ++ [surface] }, surface)

/-- The key under which `GazeMapper.process_frame` stores one entry of
`mapped_gaze`: the surface uid for an absent location (line 67), and
`location.surface_uid` for a present one (line 72). -/
def mgKey : String × Option SurfaceLocation → String
  | (uid, none) => uid
  | (_, some loc) => loc.surface_uid

/-- The value stored under that key: the empty list for an absent location
(line 67); otherwise map the undistorted gaze through the location and zip
the iterated gaze sample with the normalized rows (lines 70-75), building one
`MarkerMappedGaze` per pair with the dict-iteration key as `aoi_id`. -/
def mgVal (gaze : GazeData) (gazeUndistorted : List Point) :
    String × Option SurfaceLocation → List MarkerMappedGaze
  | (_, none) => []
  | (uid, some loc) =>
    (gaze.toFields.zip (loc.mapFromImageToSurface gazeUndistorted)).map
      (fun bn => MarkerMappedGaze.fromNormPos uid bn.2 bn.1)

/-- `GazeMapper.process_frame` (gaze_mapper.py lines 47-77).  Guard: if the
camera or the detector is unset, return `None` (modelled `Except.ok none`);
otherwise detect markers, locate every registered surface (a dict
comprehension keyed by surface uid), undistort the gaze pixel, build the
mapped-gaze dict and return the aggregate result.  The method assigns no
attribute, so the state component of the returned pair is the input state;
`Except.error` models an uncaught Python exception. -/
def GazeMapper.processFrame (env : Externals) (s : GazeMapperState)
    (frame : Frame) (gaze : GazeData) :
    GazeMapperState × Except String (Option MarkerMapperResult) :=
  match s.camera, s.detector with
  | some cam, some det =>
    match ApriltagDetector.detectFromImage env det frame with
    | Except.error e => (s, Except.error e)
    | Except.ok markers =>
      let surfaceLocations :=
        dictOfList Surface.uid (fun srf => env.locateSurface srf markers) s.surfaces
      let gazeUndistorted :=
        cam.undistortPointsOnImagePlane env [{ x := gaze.x, y := gaze.y }]
      let mappedGaze := dictOfList mgKey (mgVal gaze gazeUndistorted) surfaceLocations
      (s, Except.ok (some
        { markers := markers
          located_aois := surfaceLocations
          mapped_gaze := mappedGaze }))
  | _, _ => (s, Except.ok none)

/-- Project the mapped-gaze dict out of a `process_frame` return value
(empty when the call produced no result or raised). -/
def resultMappedGaze :
    GazeMapperState × Except String (Option MarkerMapperResult) →
      List (String × List MarkerMappedGaze)
  | (_, Except.ok (some r)) => r.mapped_gaze
  | _ => []

/-- The public mutating/observing operations of a `GazeMapper`, for stating
invariants over arbitrary call sequences. -/
inductive MapperOp where
  | setCam (c : Option RadialDistCamera)
  | addSurf (mvs : List (ℤ × MarkerVerts)) (sz : ℚ × ℚ) (nm : String) (fid : String)
  | clearSurfs
  | procFrame (f : Frame) (g : GazeData)

/-- Apply one public operation to the mapper state. -/
def applyOp (env : Externals) (s : GazeMapperState) : MapperOp → GazeMapperState
  | MapperOp.setCam c => GazeMapper.setCamera s c
  | MapperOp.addSurf mvs sz nm fid => (GazeMapper.addSurface s mvs sz nm fid).1
  | MapperOp.clearSurfs => GazeMapper.clearSurfaces s
  | MapperOp.procFrame f g => (GazeMapper.processFrame env s f g).1

/-! ### Lemmas about the Python-dict model -/

theorem dlookup_dinsert {V : Type} (d : List (String × V)) (k u : String) (v : V) :
    dlookup (dinsert d k v) u = if k = u then some v else dlookup d u := by
  induction d with
  | nil =>
    simp only [dinsert, dlookup]
  | cons e rest ih =>
    by_cases h1 : e.1 = k
    · have h3 : dinsert (e :: rest) k v = (k, v) :: rest := by
        simp [dinsert, h1]
      rw [h3]
      by_cases h2 : k = u
      · simp [dlookup, h2]
      · have h4 : ¬ e.1 = u := fun h => h2 (h1.symm.trans h)
        simp [dlookup, h2, h4]
    · have h3 : dinsert (e :: rest) k v = e :: dinsert rest k v := by
        simp [dinsert, h1]
      rw [h3]
      by_cases h4 : e.1 = u
      · have h5 : ¬ k = u := fun h => h1 (h4.trans h.symm)
        simp [dlookup, h4, h5]
      · simp [dlookup, h4, ih]

theorem lastWith_eq_none_iff {α : Type} (p : α → Bool) (xs : List α) :
    lastWith p xs = none ↔ ∀ x ∈ xs, p x = false := by
  induction xs with
  | nil => simp [lastWith]
  | cons x xs ih =>
    cases hl : lastWith p xs with
    | some y =>
      simp only [lastWith, hl]
      constructor
      · intro h; cases h
      · intro h
        have : lastWith p xs = none := ih.mpr (fun a ha => h a (List.mem_cons_of_mem x ha))
        rw [hl] at this; cases this
    | none =>
      simp only [lastWith, hl]
      constructor
      · intro h
        intro a ha
        rcases List.mem_cons.mp ha with rfl | ha
        · by_cases hp : p a
          · rw [if_pos hp] at h; cases h
          · simpa using hp
        · exact (ih.mp hl) a ha
      · intro h
        rw [if_neg]
        simp [h x (List.mem_cons_self x xs)]

theorem dlookup_foldl_dinsert {α V : Type} (key : α → String) (val : α → V)
    (xs : List α) (acc : List (String × V)) (u : String) :
    dlookup (xs.foldl (fun d x => dinsert d (key x) (val x)) acc) u =
      match lastWith (fun x => key x == u) xs with
      | some x => some (val x)
      | none => dlookup acc u := by
  induction xs generalizing acc with
  | nil => rfl
  | cons x xs ih =>
    rw [List.foldl_cons, ih]
    cases hl : lastWith (fun a => key a == u) xs with
    | some y => simp [lastWith, hl]
    | none =>
      simp only [lastWith, hl]
      rw [dlookup_dinsert]
      by_cases h : key x = u <;> simp [h]

theorem dlookup_dictOfList {α V : Type} (key : α → String) (val : α → V)
    (xs : List α) (u : String) :
    dlookup (dictOfList key val xs) u =
      Option.map val (lastWith (fun x => key x == u) xs) := by
  unfold dictOfList
  rw [dlookup_foldl_dinsert]
  cases lastWith (fun x => key x == u) xs <;> simp [dlookup]

theorem dlookup_eq_none_iff {V : Type} (d : List (String × V)) (u : String) :
    dlookup d u = none ↔ u ∉ d.map Prod.fst := by
  induction d with
  | nil => simp [dlookup]
  | cons e rest ih =>
    by_cases h : e.1 = u
    · simp [dlookup, h]
    · simp [dlookup, h, Ne.symm h, ih]

theorem dlookup_mem {V : Type} (d : List (String × V)) (u : String) (v : V)
    (h : dlookup d u = some v) : (u, v) ∈ d := by
  induction d with
  | nil => cases h
  | cons e rest ih =>
    by_cases he : e.1 = u
    · rw [dlookup, if_pos he] at h
      have : e = (u, v) := by
        cases e
        cases h
        simp_all
      exact this ▸ List.mem_cons_self e rest
    · rw [dlookup, if_neg he] at h
      exact List.mem_cons_of_mem e (ih h)

theorem mem_dinsert {V : Type} (d : List (String × V)) (k : String) (v : V)
    (e : String × V) (h : e ∈ dinsert d k v) : e = (k, v) ∨ e ∈ d := by
  induction d with
  | nil =>
    simp [dinsert] at h
    exact Or.inl h
  | cons f rest ih =>
    by_cases hf : f.1 = k
    · rw [dinsert, if_pos hf] at h
      rcases List.mem_cons.mp h with rfl | h
      · exact Or.inl rfl
      · exact Or.inr (List.mem_cons_of_mem f h)
    · rw [dinsert, if_neg hf] at h
      rcases List.mem_cons.mp h with rfl | h
      · exact Or.inr (List.mem_cons_self e rest)
      · rcases ih h with h | h
        · exact Or.inl h
        · exact Or.inr (List.mem_cons_of_mem f h)

theorem mem_foldl_dinsert {α V : Type} (key : α → String) (val : α → V)
    (P : String × V → Prop) (xs : List α) (acc : List (String × V))
    (hacc : ∀ e ∈ acc, P e) (hxs : ∀ x ∈ xs, P (key x, val x)) :
    ∀ e ∈ xs.foldl (fun d x => dinsert d (key x) (val x)) acc, P e := by
  induction xs generalizing acc with
  | nil => exact hacc
  | cons x xs ih =>
    rw [List.foldl_cons]
    refine ih _ (fun e he => ?_) (fun a ha => hxs a (List.mem_cons_of_mem x ha))
    rcases mem_dinsert acc (key x) (val x) e he with rfl | he
    · exact hxs x (List.mem_cons_self x xs)
    · exact hacc e he

theorem mem_dictOfList {α V : Type} (key : α → String) (val : α → V)
    (xs : List α) (e : String × V) (h : e ∈ dictOfList key val xs) :
    ∃ x, x ∈ xs ∧ e.1 = key x ∧ e.2 = val x := by
  refine mem_foldl_dinsert key val
    (fun e => ∃ x, x ∈ xs ∧ e.1 = key x ∧ e.2 = val x) xs [] ?_ ?_ e h
  · intro e he; cases he
  · intro x hx; exact ⟨x, hx, rfl, rfl⟩

theorem keys_dinsert {V : Type} (d : List (String × V)) (k : String) (v : V) :
    (dinsert d k v).map Prod.fst =
      if k ∈ d.map Prod.fst then d.map Prod.fst else d.map Prod.fst ++ [k] := by
  induction d with
  | nil => simp [dinsert]
  | cons e rest ih =>
    by_cases hf : e.1 = k
    · simp [dinsert, hf]
    · have hk2 : ¬ k = e.1 := fun h => hf h.symm
      by_cases hk : k ∈ rest.map Prod.fst
      · simp [dinsert, hf, ih, hk, hk2]
      · simp [dinsert, hf, ih, hk, hk2]

theorem nodup_keys_dinsert {V : Type} (d : List (String × V)) (k : String) (v : V)
    (h : (d.map Prod.fst).Nodup) : ((dinsert d k v).map Prod.fst).Nodup := by
  rw [keys_dinsert]
  by_cases hk : k ∈ d.map Prod.fst
  · simpa [hk] using h
  · rw [if_neg hk]
    refine (List.nodup_append).mpr ⟨h, List.nodup_singleton k, ?_⟩
    intro a ha hb
    rcases List.mem_singleton.mp hb with rfl
    exact hk ha

theorem nodup_keys_foldl_dinsert {α V : Type} (key : α → String) (val : α → V)
    (xs : List α) (acc : List (String × V)) (hacc : (acc.map Prod.fst).Nodup) :
    (((xs.foldl (fun d x => dinsert d (key x) (val x)) acc)).map Prod.fst).Nodup := by
  induction xs generalizing acc with
  | nil => exact hacc
  | cons x xs ih =>
    rw [List.foldl_cons]
    exact ih _ (nodup_keys_dinsert acc (key x) (val x) hacc)

theorem nodup_keys_dictOfList {α V : Type} (key : α → String) (val : α → V)
    (xs : List α) : ((dictOfList key val xs).map Prod.fst).Nodup :=
  nodup_keys_foldl_dinsert key val xs [] List.nodup_nil

theorem lastWith_congr {α : Type} (p q : α → Bool) (xs : List α)
    (h : ∀ x ∈ xs, p x = q x) : lastWith p xs = lastWith q xs := by
  induction xs with
  | nil => rfl
  | cons x xs ih =>
    simp only [lastWith,
      ih (fun a ha => h a (List.mem_cons_of_mem x ha)),
      h x (List.mem_cons_self x xs)]

theorem lastWith_key_of_nodup {α : Type} (f : α → String) (xs : List α) (x : α)
    (hnd : (xs.map f).Nodup) (hx : x ∈ xs) :
    lastWith (fun a => f a == f x) xs = some x := by
  induction xs with
  | nil => cases hx
  | cons y ys ih =>
    rw [List.map_cons, List.nodup_cons] at hnd
    rcases List.mem_cons.mp hx with rfl | h
    · have hnone : lastWith (fun a => f a == f x) ys = none := by
        rw [lastWith_eq_none_iff]
        intro a ha
        have : f a ≠ f x := fun he => hnd.1 (he ▸ List.mem_map_of_mem f ha)
        simpa using this
      simp [lastWith, hnone]
    · have := ih hnd.2 h
      simp [lastWith, this]

theorem dlookup_dictOfList_of_mem {α V : Type} (key : α → String) (val : α → V)
    (xs : List α) (x : α) (hnd : (xs.map key).Nodup) (hx : x ∈ xs) :
    dlookup (dictOfList key val xs) (key x) = some (val x) := by
  rw [dlookup_dictOfList, lastWith_key_of_nodup key xs x hnd hx]
  rfl

theorem mem_keys_dictOfList {α V : Type} (key : α → String) (val : α → V)
    (xs : List α) (u : String) :
    u ∈ (dictOfList key val xs).map Prod.fst ↔ u ∈ xs.map key := by
  constructor
  · intro h
    rcases List.mem_map.mp h with ⟨e, he, rfl⟩
    rcases mem_dictOfList key val xs e he with ⟨x, hx, h1, _⟩
    exact h1 ▸ List.mem_map_of_mem key hx
  · intro h
    by_contra hc
    have h0 : dlookup (dictOfList key val xs) u = none :=
      (dlookup_eq_none_iff _ u).mpr hc
    rw [dlookup_dictOfList] at h0
    have hnone : lastWith (fun x => key x == u) xs = none := by
      cases hl : lastWith (fun x => key x == u) xs
      · rfl
      · rw [hl] at h0; cases h0
    rw [lastWith_eq_none_iff] at hnone
    rcases List.mem_map.mp h with ⟨x, hx, rfl⟩
    have := hnone x hx
    simp at this

/-! ### Lemmas about the detection pipeline and `process_frame` -/

theorem conv_uid (env : Externals) (cam : RadialDistCamera) (r : RawDetection) :
    (apriltagMarkerToSurfaceMarker env cam r).uid = rawDetectionUid r := rfl

theorem filter_conv_eq_nil (env : Externals) (cam : RadialDistCamera)
    (d : List (String × RawDetection))
    (hinv : ∀ e ∈ d, e.1 = rawDetectionUid e.2) (u : String)
    (hne : ∀ e ∈ d, e.1 ≠ u) :
    ((d.map Prod.snd).map (apriltagMarkerToSurfaceMarker env cam)).filter
        (fun m => m.uid == u) = [] := by
  induction d with
  | nil => rfl
  | cons e rest ih =>
    have h1 : rawDetectionUid e.2 ≠ u :=
      hinv e (List.mem_cons_self e rest) ▸ hne e (List.mem_cons_self e rest)
    have h2 : ((apriltagMarkerToSurfaceMarker env cam e.2).uid == u) = false := by
      rw [conv_uid]
      simpa using h1
    simp only [List.map_cons, List.filter_cons, h2]
    exact ih (fun a ha => hinv a (List.mem_cons_of_mem e ha))
      (fun a ha => hne a (List.mem_cons_of_mem e ha))

theorem filter_conv_values (env : Externals) (cam : RadialDistCamera)
    (d : List (String × RawDetection))
    (hinv : ∀ e ∈ d, e.1 = rawDetectionUid e.2)
    (hnd : (d.map Prod.fst).Nodup) (u : String) (r : RawDetection)
    (hl : dlookup d u = some r) :
    ((d.map Prod.snd).map (apriltagMarkerToSurfaceMarker env cam)).filter
        (fun m => m.uid == u) = [apriltagMarkerToSurfaceMarker env cam r] := by
  induction d with
  | nil => cases hl
  | cons e rest ih =>
    rw [List.map_cons, List.nodup_cons] at hnd
    by_cases he : e.1 = u
    · rw [dlookup, if_pos he] at hl
      have hr : e.2 = r := by cases hl; rfl
      have h2 : ((apriltagMarkerToSurfaceMarker env cam e.2).uid == u) = true := by
        rw [conv_uid, ← hinv e (List.mem_cons_self e rest), he]
        simp
      have hrest :
          ((rest.map Prod.snd).map (apriltagMarkerToSurfaceMarker env cam)).filter
            (fun m => m.uid == u) = [] := by
        refine filter_conv_eq_nil env cam rest
          (fun a ha => hinv a (List.mem_cons_of_mem e ha)) u (fun a ha hau => ?_)
        exact hnd.1 (he ▸ hau ▸ List.mem_map_of_mem Prod.fst ha)
      rw [hr] at h2
      simp only [List.map_cons, List.filter_cons, h2, if_true, hrest, hr]
    · rw [dlookup, if_neg he] at hl
      have h2 : ((apriltagMarkerToSurfaceMarker env cam e.2).uid == u) = false := by
        rw [conv_uid, ← hinv e (List.mem_cons_self e rest)]
        simpa using he
      simp only [List.map_cons, List.filter_cons, h2]
      exact ih (fun a ha => hinv a (List.mem_cons_of_mem e ha)) hnd.2 hl

/-- `GazeMapper.process_frame` assigns no attribute of the mapper, so the
state component of its return value is the input state, whatever happens. -/
theorem processFrame_fst (env : Externals) (s : GazeMapperState) (frame : Frame)
    (gaze : GazeData) : (GazeMapper.processFrame env s frame gaze).1 = s := by
  rcases s with ⟨cam, det, surfs, rr⟩
  cases cam with
  | none => rfl
  | some c =>
    cases det with
    | none => rfl
    | some d =>
      cases h : ApriltagDetector.detectFromImage env d frame <;>
        simp [GazeMapper.processFrame, h]

/-! ### Claim theorems -/

/-- Claim C1: if the mapper's camera or its detector is unset, `process_frame`
is a no-op: it returns no result (`none`), raises no error, and leaves the
mapper's state — surfaces, camera, detector, retained result — unchanged. -/
theorem processFrame_noop_of_unconfigured (env : Externals) (s : GazeMapperState)
    (frame : Frame) (gaze : GazeData) (h : s.camera = none ∨ s.detector = none) :
    GazeMapper.processFrame env s frame gaze = (s, Except.ok none) := by
  rcases s with ⟨cam, det, surfs, rr⟩
  rcases h with h | h
  · simp only at h
    subst h
    cases det <;> rfl
  · simp only at h
    subst h
    cases cam <;> rfl

/-- A concrete externals stub: identity undistortion, empty detector output,
locator that never locates. -/
def envW : Externals :=
  { cv2UndistortProject := fun _ _ pts => pts
    bgrToGray := fun n => n
    apriltagDetect := fun _ => []
    locateSurface := fun _ _ => none }

/-- A mapper state whose camera has been set to `None` (the setter then bound
the rebuilt detector to the absent camera). -/
def stW : GazeMapperState :=
  { camera := none
    detector := some { cameraModel := none }
    surfaces := []
    recentResult := none }

/-- Witness for C1 at a concrete unconfigured state. -/
theorem processFrame_noop_of_unconfigured_witness :
    GazeMapper.processFrame envW stW { bgr_pixels := 0 }
      { x := 0, y := 0, worn := true, timestamp_unix_seconds := 0 } =
      (stW, Except.ok none) :=
  processFrame_noop_of_unconfigured envW stW { bgr_pixels := 0 }
    { x := 0, y := 0, worn := true, timestamp_unix_seconds := 0 } (Or.inl rfl)

/-- With a camera model bound, a detection pass never raises: it returns the
converted values of the uid-keyed deduplication dict. -/
theorem detectFromGray_some (env : Externals) (cam : RadialDistCamera)
    (gray : GrayImage) :
    ApriltagDetector.detectFromGray env { cameraModel := some cam } gray =
      Except.ok
        (((dictOfList rawDetectionUid (fun m => m) (env.apriltagDetect gray)).map
            Prod.snd).map (apriltagMarkerToSurfaceMarker env cam)) := rfl

/-- Claim C5: the on-surface classification is the inclusive test
0 ≤ x ≤ 1 and 0 ≤ y ≤ 1; in particular (0,0) and (1,1) are on-surface while
(-1/10000, 1/2) and (1/2, 10001/10000) are off-surface. -/
theorem fromNormPos_on_surface_iff :
    (∀ (aoiId : String) (np : Point) (b : GazeField),
        (MarkerMappedGaze.fromNormPos aoiId np b).is_on_aoi = true ↔
          (0 ≤ np.x ∧ np.x ≤ 1 ∧ 0 ≤ np.y ∧ np.y ≤ 1))
    ∧ (MarkerMappedGaze.fromNormPos "s" { x := 0, y := 0 }
        (GazeField.num 0)).is_on_aoi = true
    ∧ (MarkerMappedGaze.fromNormPos "s" { x := 1, y := 1 }
        (GazeField.num 0)).is_on_aoi = true
    ∧ (MarkerMappedGaze.fromNormPos "s" { x := -1/10000, y := 1/2 }
        (GazeField.num 0)).is_on_aoi = false
    ∧ (MarkerMappedGaze.fromNormPos "s" { x := 1/2, y := 10001/10000 }
        (GazeField.num 0)).is_on_aoi = false := by
  refine ⟨fun aoiId np b => ?_, by norm_num [MarkerMappedGaze.fromNormPos],
    by norm_num [MarkerMappedGaze.fromNormPos],
    by norm_num [MarkerMappedGaze.fromNormPos],
    by norm_num [MarkerMappedGaze.fromNormPos]⟩
  simp [MarkerMappedGaze.fromNormPos]

/-- Claim C3 counterexample: constructing the marker adapter with no camera
model bound does not fail fast; it succeeds, storing the absent camera. -/
theorem apriltagDetectorInit_none_succeeds :
    apriltagDetectorInit none = Except.ok { cameraModel := none } := rfl

/-- Claim C3 (amended): adapter construction never fails, whatever camera
model (including none) is bound; the missing intrinsics surface only later,
when a detection pass that has at least one raw detection to undistort raises. -/
theorem apriltagDetectorInit_total (c : Option RadialDistCamera) :
    apriltagDetectorInit c = Except.ok { cameraModel := c } ∧
    ∀ (env : Externals) (gray : GrayImage),
      env.apriltagDetect gray ≠ [] →
      ∃ e, ApriltagDetector.detectFromGray env { cameraModel := none } gray =
        Except.error e := by
  refine ⟨rfl, fun env gray hne => ?_⟩
  refine ⟨"AttributeError: NoneType has no undistort_points_on_image_plane", ?_⟩
  have hkey : ∃ u, u ∈ (dictOfList rawDetectionUid (fun m => m)
      (env.apriltagDetect gray)).map Prod.fst := by
    cases hr : env.apriltagDetect gray with
    | nil => exact absurd hr hne
    | cons r rs =>
      refine ⟨rawDetectionUid r, ?_⟩
      rw [mem_keys_dictOfList]
      exact List.mem_map_of_mem rawDetectionUid (List.mem_cons_self r rs)
  have hne2 : ((dictOfList rawDetectionUid (fun m => m)
      (env.apriltagDetect gray)).map Prod.snd).isEmpty = false := by
    rcases hkey with ⟨u, hu⟩
    cases hd : dictOfList rawDetectionUid (fun m => m) (env.apriltagDetect gray) with
    | nil => rw [hd] at hu; cases hu
    | cons e d => simp [hd]
  unfold ApriltagDetector.detectFromGray
  simp only [hne2]
  rfl

/-- The detections used as concrete duplicate-uid inputs: same family and tag
id, different corners. -/
def rawD1 : RawDetection :=
  { tagFamily := "tag36h11", tagId := 7, corners := [{ x := 0, y := 0 }] }

def rawD2 : RawDetection :=
  { tagFamily := "tag36h11", tagId := 7, corners := [{ x := 5, y := 5 }] }

/-- Externals whose detector reports the same apriltag twice in one frame. -/
def envD : Externals :=
  { cv2UndistortProject := fun _ _ pts => pts
    bgrToGray := fun n => n
    apriltagDetect := fun _ => [rawD1, rawD2]
    locateSurface := fun _ _ => none }

/-- Witness for the amended C3 at a concrete camera-less adapter and a frame
with one (duplicated) detection. -/
theorem apriltagDetectorInit_total_witness :
    apriltagDetectorInit none = Except.ok { cameraModel := none } ∧
    ∃ e, ApriltagDetector.detectFromGray envD { cameraModel := none } 0 =
      Except.error e :=
  ⟨(apriltagDetectorInit_total none).1,
   (apriltagDetectorInit_total none).2 envD 0 (by decide)⟩

/-- A camera as built by `GazeMapper.__init__` for an empty calibration. -/
def cam0 : RadialDistCamera :=
  { name := "Scene", resolution := (1, 1), K := [], D := [] }

/-- A configured mapper state with no registered surfaces. -/
def st4 : GazeMapperState :=
  { camera := some cam0
    detector := some { cameraModel := some cam0 }
    surfaces := []
    recentResult := none }

/-- The result `process_frame` produces on `st4` under `envW`. -/
def res4 : MarkerMapperResult :=
  { markers := [], located_aois := [], mapped_gaze := [] }

/-- A concrete gaze sample. -/
def gz0 : GazeData := { x := 0, y := 0, worn := true, timestamp_unix_seconds := 0 }

/-- Claim C4 counterexample: a `process_frame` call that produces a result
leaves the retained result at `none`, which is not the produced result. -/
theorem recentResult_not_updated_counterexample :
    (GazeMapper.processFrame envW st4 { bgr_pixels := 0 } gz0).2 =
        Except.ok (some res4) ∧
    (GazeMapper.processFrame envW st4 { bgr_pixels := 0 } gz0).1.recentResult =
        none ∧
    (none : Option MarkerMapperResult) ≠ some res4 :=
  ⟨rfl, rfl, by simp⟩

/-- Claim C4 (amended): `process_frame` never updates the retained result:
after any call the retained result equals its value before the call, which
construction sets to none. -/
theorem recentResult_unchanged (env : Externals) (s : GazeMapperState)
    (frame : Frame) (gaze : GazeData) :
    (GazeMapper.processFrame env s frame gaze).1.recentResult = s.recentResult ∧
    ∀ (calib : Calibration) (surfs : List Surface),
      (GazeMapper.init calib surfs).recentResult = none :=
  ⟨by rw [processFrame_fst], fun _ _ => rfl⟩

/-- The camera/adapter binding invariant: the detector in use is the one
rebuilt for the currently active camera. -/
def detectorBoundInv (s : GazeMapperState) : Prop :=
  s.detector = some { cameraModel := s.camera }

/-- Every public operation preserves the camera/adapter binding invariant. -/
theorem detectorBoundInv_applyOp (env : Externals) (s : GazeMapperState)
    (op : MapperOp) (h : detectorBoundInv s) : detectorBoundInv (applyOp env s op) := by
  cases op with
  | setCam c => rfl
  | addSurf mvs sz nm fid => exact h
  | clearSurfs => exact h
  | procFrame f g =>
    show detectorBoundInv (GazeMapper.processFrame env s f g).1
    rw [detectorBoundInv, processFrame_fst]
    exact h

/-- Claim C8: setting the camera replaces the camera model and rebuilds the
adapter bound to it in the same operation, and after any sequence of public
operations from construction (in particular after N consecutive camera sets)
the adapter in use is bound to exactly the currently active camera. -/
theorem camera_detector_binding :
    (∀ (s : GazeMapperState) (c : Option RadialDistCamera),
        (GazeMapper.setCamera s c).camera = c ∧
        (GazeMapper.setCamera s c).detector = some { cameraModel := c })
    ∧ ∀ (env : Externals) (calib : Calibration) (surfs : List Surface)
        (ops : List MapperOp),
        (ops.foldl (applyOp env) (GazeMapper.init calib surfs)).detector =
          some { cameraModel :=
            (ops.foldl (applyOp env) (GazeMapper.init calib surfs)).camera } := by
  refine ⟨fun s c => ⟨rfl, rfl⟩, fun env calib surfs ops => ?_⟩
  have h0 : detectorBoundInv (GazeMapper.init calib surfs) := rfl
  generalize GazeMapper.init calib surfs = s0 at h0 ⊢
  induction ops generalizing s0 with
  | nil => exact h0
  | cons op ops ih => exact ih _ (detectorBoundInv_applyOp env s0 op h0)

/-- Claim C9: with a camera bound, one detection pass yields, without error,
exactly one marker per distinct uid occurring among the raw detections (and
none for any other uid): duplicates are collapsed. -/
theorem detect_dedup_by_uid (env : Externals) (cam : RadialDistCamera)
    (gray : GrayImage) :
    ∃ ms, ApriltagDetector.detectFromGray env { cameraModel := some cam } gray =
        Except.ok ms ∧
      ∀ u, ms.countP (fun m => m.uid == u) =
        if u ∈ (env.apriltagDetect gray).map rawDetectionUid then 1 else 0 := by
  refine ⟨_, detectFromGray_some env cam gray, fun u => ?_⟩
  have hinv : ∀ e ∈ dictOfList rawDetectionUid (fun m => m) (env.apriltagDetect gray),
      e.1 = rawDetectionUid e.2 := by
    intro e he
    rcases mem_dictOfList _ _ _ e he with ⟨x, _, h1, h2⟩
    rw [h1, h2]
  have hnd := nodup_keys_dictOfList rawDetectionUid (fun m => m)
    (env.apriltagDetect gray)
  rw [List.countP_eq_length_filter]
  by_cases hu : u ∈ (dictOfList rawDetectionUid (fun m => m)
      (env.apriltagDetect gray)).map Prod.fst
  · obtain ⟨r, hr⟩ : ∃ r, dlookup (dictOfList rawDetectionUid (fun m => m)
        (env.apriltagDetect gray)) u = some r := by
      cases hl : dlookup (dictOfList rawDetectionUid (fun m => m)
          (env.apriltagDetect gray)) u with
      | none => exact absurd hu ((dlookup_eq_none_iff _ u).mp hl)
      | some r => exact ⟨r, rfl⟩
    rw [filter_conv_values env cam _ hinv hnd u r hr,
      if_pos ((mem_keys_dictOfList _ _ _ u).mp hu)]
    rfl
  · rw [filter_conv_eq_nil env cam _ hinv u
      (fun e he hee => hu (hee ▸ List.mem_map_of_mem Prod.fst he)),
      if_neg (fun h => hu ((mem_keys_dictOfList _ _ _ u).mpr h))]
    rfl

/-- Claim C10: when several raw detections in one frame share a uid, the one
the adapter keeps is the last of them in the external detector's output order
(dict-comprehension last-write-wins). -/
theorem detect_keeps_last_duplicate (env : Externals) (cam : RadialDistCamera)
    (gray : GrayImage) (u : String) (r : RawDetection)
    (h : lastWith (fun a => rawDetectionUid a == u) (env.apriltagDetect gray) =
      some r) :
    ∃ ms, ApriltagDetector.detectFromGray env { cameraModel := some cam } gray =
        Except.ok ms ∧
      ms.filter (fun m => m.uid == u) =
        [apriltagMarkerToSurfaceMarker env cam r] := by
  refine ⟨_, detectFromGray_some env cam gray, ?_⟩
  have hinv : ∀ e ∈ dictOfList rawDetectionUid (fun m => m) (env.apriltagDetect gray),
      e.1 = rawDetectionUid e.2 := by
    intro e he
    rcases mem_dictOfList _ _ _ e he with ⟨x, _, h1, h2⟩
    rw [h1, h2]
  have hnd := nodup_keys_dictOfList rawDetectionUid (fun m => m)
    (env.apriltagDetect gray)
  have hlk : dlookup (dictOfList rawDetectionUid (fun m => m)
      (env.apriltagDetect gray)) u = some r := by
    rw [dlookup_dictOfList, h]
    rfl
  exact filter_conv_values env cam _ hinv hnd u r hlk

/-- Witness for C10: the detector reports the same tag twice; the adapter's
output keeps the conversion of the second (last) raw detection. -/
theorem detect_keeps_last_duplicate_witness :
    ∃ ms, ApriltagDetector.detectFromGray envD { cameraModel := some cam0 } 0 =
        Except.ok ms ∧
      ms.filter (fun m => m.uid == "tag36h11:7") =
        [apriltagMarkerToSurfaceMarker envD cam0 rawD2] :=
  detect_keeps_last_duplicate envD cam0 0 "tag36h11:7" rawD2 (by decide)

/-- Claim C6: each marker entry passed to `add_surface` is stored with its
four pixel vertices divided componentwise by the surface pixel size, the
normalized y replaced by 1 - y, and assigned to corner ids by input index as
3 to TOP_LEFT, 0 to BOTTOM_LEFT, 2 to TOP_RIGHT, 1 to BOTTOM_RIGHT.  The
nodup hypothesis is the key uniqueness of the Python `markers_verts` dict. -/
theorem addSurface_stores_normalized_flipped_corners
    (s : GazeMapperState) (mvs : List (ℤ × MarkerVerts)) (sz : ℚ × ℚ)
    (nm fid : String)
    (hnd : (mvs.map (fun e => createApriltagMarkerUid "tag36h11" e.1)).Nodup)
    (mid : ℤ) (mv : MarkerVerts) (hmem : (mid, mv) ∈ mvs) :
    (dlookup (GazeMapper.addSurface s mvs sz nm fid).2.registered_markers_undistorted
        (createApriltagMarkerUid "tag36h11" mid)).map
        (fun m => (m.vertices_by_corner_id CornerId.TOP_LEFT,
                   m.vertices_by_corner_id CornerId.BOTTOM_LEFT,
                   m.vertices_by_corner_id CornerId.TOP_RIGHT,
                   m.vertices_by_corner_id CornerId.BOTTOM_RIGHT)) =
      some ({ x := mv.v3.x / sz.1, y := 1 - mv.v3.y / sz.2 },
            { x := mv.v0.x / sz.1, y := 1 - mv.v0.y / sz.2 },
            { x := mv.v2.x / sz.1, y := 1 - mv.v2.y / sz.2 },
            { x := mv.v1.x / sz.1, y := 1 - mv.v1.y / sz.2 }) := by
  have hre : (GazeMapper.addSurface s mvs sz nm fid).2.registered_markers_undistorted =
      dictOfList (fun e => createApriltagMarkerUid "tag36h11" e.1)
        (fun e => coreMarkerOfVerts e.1 sz e.2) mvs := rfl
  have h := dlookup_dictOfList_of_mem
    (fun e => createApriltagMarkerUid "tag36h11" e.1)
    (fun e => coreMarkerOfVerts e.1 sz e.2) mvs (mid, mv) hnd hmem
  rw [hre, h]
  rfl

/-- The marker polygon at the four pixel corners of a 200 by 100 surface, in
the source's input order (index 0 bottom-left, 1 bottom-right, 2 top-right,
3 top-left, in pixel coordinates with y pointing down). -/
def mvEx : MarkerVerts :=
  { v0 := { x := 0, y := 100 }
    v1 := { x := 200, y := 100 }
    v2 := { x := 200, y := 0 }
    v3 := { x := 0, y := 0 } }

/-- Witness for C6: on a 200 by 100 surface with the marker polygon at the
surface's corners, BOTTOM_LEFT maps to (0,0) and TOP_LEFT to (0,1). -/
theorem addSurface_stores_normalized_flipped_corners_witness :
    (dlookup (GazeMapper.addSurface stW [(3, mvEx)] (200, 100) "Screen"
          "u1").2.registered_markers_undistorted
        (createApriltagMarkerUid "tag36h11" 3)).map
        (fun m => (m.vertices_by_corner_id CornerId.TOP_LEFT,
                   m.vertices_by_corner_id CornerId.BOTTOM_LEFT,
                   m.vertices_by_corner_id CornerId.TOP_RIGHT,
                   m.vertices_by_corner_id CornerId.BOTTOM_RIGHT)) =
      some ({ x := 0, y := 1 }, { x := 0, y := 0 },
            { x := 1, y := 1 }, { x := 1, y := 0 }) := by
  rw [addSurface_stores_normalized_flipped_corners stW [(3, mvEx)] (200, 100)
    "Screen" "u1" (by decide) 3 mvEx (by decide)]
  norm_num [mvEx]

/-- Looking up, in the mapped-gaze dict built by `process_frame`, a uid whose
per-surface location entry is absent yields the empty list — provided the
external locator honours its contract of returning a location carrying the
queried surface's uid. -/
theorem dlookup_mgdict (env : Externals) (gaze : GazeData) (gu : List Point)
    (ms : List Marker) (surfs : List Surface) (u : String)
    (hloc : ∀ sf msk loc, env.locateSurface sf msk = some loc →
      loc.surface_uid = sf.uid)
    (hu : dlookup (dictOfList Surface.uid (fun srf => env.locateSurface srf ms)
      surfs) u = some none) :
    dlookup (dictOfList mgKey (mgVal gaze gu)
      (dictOfList Surface.uid (fun srf => env.locateSurface srf ms) surfs)) u =
      some [] := by
  set SL := dictOfList Surface.uid (fun srf => env.locateSurface srf ms) surfs
    with hSL
  have hnd : (SL.map Prod.fst).Nodup := nodup_keys_dictOfList _ _ _
  have hkey : ∀ e ∈ SL, mgKey e = e.1 := by
    intro e he
    rcases mem_dictOfList _ _ _ e he with ⟨sf, hsf, h1, h2⟩
    rcases e with ⟨k, v⟩
    cases v with
    | none => rfl
    | some loc =>
      simp only at h1 h2
      have h3 := hloc sf ms loc h2.symm
      simp [mgKey, h3, h1]
  have hmem : ((u, none) : String × Option SurfaceLocation) ∈ SL :=
    dlookup_mem SL u none hu
  rw [dlookup_dictOfList]
  have hcong : lastWith (fun e => mgKey e == u) SL =
      lastWith (fun e => e.1 == u) SL :=
    lastWith_congr _ _ SL (fun e he => by rw [hkey e he])
  have hlast : lastWith (fun e => e.1 == u) SL = some (u, none) := by
    have h4 := lastWith_key_of_nodup Prod.fst SL (u, none) hnd hmem
    simpa using h4
  rw [hcong, hlast]
  rfl

/-- Claim C7: in every result `process_frame` returns, a registered surface
whose localization is absent has an entry in the mapped-gaze map and its value
is the empty list — the entry is never absent.  `hloc` is the external
locator's contract: a returned location carries the queried surface's uid. -/
theorem mappedGaze_empty_of_unlocated (env : Externals) (s : GazeMapperState)
    (frame : Frame) (gaze : GazeData) (r : MarkerMapperResult) (srf : Surface)
    (hloc : ∀ sf msk loc, env.locateSurface sf msk = some loc →
      loc.surface_uid = sf.uid)
    (hr : (GazeMapper.processFrame env s frame gaze).2 = Except.ok (some r))
    (hsrf : srf ∈ s.surfaces)
    (hu : dlookup r.located_aois srf.uid = some none) :
    dlookup r.mapped_gaze srf.uid = some [] := by
  rcases s with ⟨cam, det, surfs, rr⟩
  cases cam with
  | none => exact absurd hr (by simp [GazeMapper.processFrame])
  | some c =>
    cases det with
    | none => exact absurd hr (by simp [GazeMapper.processFrame])
    | some d =>
      simp only [GazeMapper.processFrame] at hr
      cases hdet : ApriltagDetector.detectFromImage env d frame with
      | error e =>
        rw [hdet] at hr
        cases hr
      | ok ms =>
        rw [hdet] at hr
        simp only [Except.ok.injEq, Option.some.injEq] at hr
        subst hr
        exact dlookup_mgdict env gaze _ ms surfs srf.uid hloc hu

/-- A registered surface with uid `s1` and no registered markers. -/
def surfA : Surface :=
  { uid := "s1", name := "Screen", registered_markers_undistorted := [] }

/-- A configured mapper state with one registered surface. -/
def stS : GazeMapperState :=
  { camera := some cam0
    detector := some { cameraModel := some cam0 }
    surfaces := [surfA]
    recentResult := none }

/-- The result `process_frame` produces on `stS` under `envW` (locator never
locates): the located map has an entry with an absent location and the
mapped-gaze map holds the empty list for it. -/
def res7 : MarkerMapperResult :=
  { markers := [], located_aois := [("s1", none)], mapped_gaze := [("s1", [])] }

/-- Witness for C7 at a concrete frame whose one registered surface has zero
visible markers, so its localization is absent. -/
theorem mappedGaze_empty_of_unlocated_witness :
    dlookup res7.mapped_gaze "s1" = some [] :=
  mappedGaze_empty_of_unlocated envW stS { bgr_pixels := 0 } gz0 res7 surfA
    (fun _ _ _ h => nomatch h) rfl (List.mem_cons_self surfA []) rfl

/-- Externals whose locator locates every surface with the identity mapping
(and carries the queried surface's uid, per the locator contract). -/
def envM : Externals :=
  { cv2UndistortProject := fun _ _ pts => pts
    bgrToGray := fun n => n
    apriltagDetect := fun _ => []
    locateSurface := fun srf _ =>
      some { surface_uid := srf.uid, mapFromImageToSurface := fun pts => pts } }

/-- A concrete gaze sample with distinct field values. -/
def gzM : GazeData := { x := 0, y := 1, worn := true, timestamp_unix_seconds := 7 }

/-- A second gaze sample with the same x and y but different worn flag and
timestamp. -/
def gzM2 : GazeData := { x := 0, y := 1, worn := false, timestamp_unix_seconds := 8 }

/-- Claim C2 evaluated on the failing input: with one located surface and one
gaze sample, `process_frame` emits exactly one mapped point for the surface,
but its `base_datum` is `GazeField.num` of the sample's first field `x` — the
`zip(gaze, ...)` in the source iterates the fields of the single `GazeData`
named tuple — not the gaze sample that was passed; a second sample differing
in its worn flag and timestamp yields the identical mapped point. -/
theorem processFrame_base_datum_is_first_field :
    resultMappedGaze (GazeMapper.processFrame envM stS { bgr_pixels := 0 } gzM) =
      [("s1", [{ aoi_id := "s1", x := 0, y := 1, is_on_aoi := true,
                 base_datum := GazeField.num gzM.x }])] ∧
    resultMappedGaze (GazeMapper.processFrame envM stS { bgr_pixels := 0 } gzM2) =
      [("s1", [{ aoi_id := "s1", x := 0, y := 1, is_on_aoi := true,
                 base_datum := GazeField.num gzM.x }])] ∧
    gzM ≠ gzM2 :=
  ⟨rfl, rfl, by decide⟩

end RTSG
